import Mathlib

/-!
# Verification of the agentic-connector-builder-webapp task-list and session core

A shallow embedding of the task-list data model and the agent-session tools of
the `agentic_connector_builder_webapp` repository, together with theorems
settling the specification claims about them.

Embedded modules:
* `models/task_list.py` — the categorised `TaskList` (three sequences).
* `task_list.py` — the flat `TaskList` (single sequence), here `Flat.TaskList`.
* `chat_agent.py` — the manifest line-editing tools, the form-field model and
  the external-tool argument injection (`process_tool_call`).
* `state/chat_agent_state.py` — the merge-back block of `run_agent_workflow`.

Python strings are modelled by `String`; Python line splitting is modelled over
the character list of the string, with the line-break set restricted to the
newline character (the manifests edited by the tools use `"\n"` breaks; Python
`str.splitlines` would additionally break on `"\r"`-style characters).
Python exceptions are modelled by `Except String`.
-/

deriving instance DecidableEq for Except

namespace ACB

/-- Python `text.split("\n")`: split on every occurrence of the newline
character; the empty string yields `[""]`, a trailing newline yields a trailing
`""` element. -/
def pySplitNewline (s : String) : List String :=
  (s.data.splitOn '\n').map String.mk

/-- Python `text.splitlines()` restricted to `"\n"` line breaks: the empty
string yields `[]`, and a trailing newline does not produce a trailing empty
line. -/
def pySplitlines (s : String) : List String :=
  if s.data.getLast? = some '\n' then ((s.data.splitOn '\n').dropLast).map String.mk
  else if s.data.isEmpty then []
  else (s.data.splitOn '\n').map String.mk

/-- Python `"\n".join(lines)`. -/
def joinNL (ls : List String) : String :=
  String.mk (List.intercalate ['\n'] (ls.map String.data))

/-- Python `max(0, min(position, n))`, the clamp used by the task-list insert
operations (`position` is a Python `int` and may be negative). -/
def pyClamp (position : Int) (n : Nat) : Nat :=
  (max 0 (min position (n : Int))).toNat

/-- Python `list.insert(i, a)` for an index `i` already clamped to `[0, len]`. -/
def listInsertAt {α : Type} (i : Nat) (a : α) (l : List α) : List α :=
  l.take i ++ a :: l.drop i

/-- Whether a string carries the `Error:` prefix that the agent tools use to
report failures. -/
def isErrorStr (s : String) : Bool :=
  s.data.take 6 == "Error:".data

/-! ## `models/task_list.py` — the categorised task list -/

/-- `TaskStatusEnum`: status of a task. -/
inductive TaskStatusEnum
  | not_started
  | in_progress
  | completed
  | blocked
deriving DecidableEq

/-- `TaskTypeEnum`: the three task categories. The source uses one subclass of
`Task` per category (`ConnectorTask`, `StreamTask`, `FinalizationTask`) with the
`task_type` field pinned to the corresponding enum value; subclass identity
(the `isinstance` dispatch in the list operations) is modelled here by this
tag. -/
inductive TaskTypeEnum
  | connector
  | stream
  | finalization
deriving DecidableEq

/-- `Task` with the fields of the per-category subclasses merged: `stream_name`
is `some _` exactly on tasks of the `StreamTask` subclass. -/
structure Task where
  task_type : TaskTypeEnum
  id : String
  task_name : String
  description : Option String := none
  status : TaskStatusEnum := TaskStatusEnum.not_started
  status_detail : Option String := none
  stream_name : Option String := none
deriving DecidableEq

/-- `TaskList` of `models/task_list.py`: three ordered category sequences. -/
structure TaskList where
  basic_connector_tasks : List Task := []
  stream_tasks : List Task := []
  finalization_tasks : List Task := []
deriving DecidableEq

/-- The `tasks` property: all tasks combined, connector then stream then
finalization. -/
def TaskList.tasks (tl : TaskList) : List Task :=
  tl.basic_connector_tasks ++ tl.stream_tasks ++ tl.finalization_tasks

/-- The message of the `ValueError` raised on a failed lookup. -/
def notFoundMsg (task_id : String) : String :=
  "Task with ID \x27" ++ task_id ++ "\x27 not found."

/-- `TaskList.get_task_by_id`. The Python signature declares `Task | None`,
so the result is modelled as `Except String (Option Task)`: `.ok (some t)` is
`return task` inside the loop, `.ok none` would be returning `None` (the body
has no such return), and `.error` is the `raise ValueError` fallthrough. -/
def TaskList.get_task_by_id (tl : TaskList) (task_id : String) :
    Except String (Option Task) :=
  match tl.tasks.find? (fun t => t.id == task_id) with
  | some t => Except.ok (some t)
  | none => Except.error (notFoundMsg task_id)

/-- `TaskList.append_task`: appends to the category sequence selected by the
`isinstance` switch. -/
def TaskList.append_task (tl : TaskList) (task : Task) : TaskList :=
  match task.task_type with
  | TaskTypeEnum.connector =>
      { tl with basic_connector_tasks := tl.basic_connector_tasks ++ [task] }
  | TaskTypeEnum.stream =>
      { tl with stream_tasks := tl.stream_tasks ++ [task] }
  | TaskTypeEnum.finalization =>
      { tl with finalization_tasks := tl.finalization_tasks ++ [task] }

/-- `TaskList.insert_task`: `position = max(0, min(position, len(seq)))` then
`seq.insert(position, task)`, on the category sequence selected by the
`isinstance` switch. -/
def TaskList.insert_task (tl : TaskList) (position : Int) (task : Task) :
    TaskList :=
  match task.task_type with
  | TaskTypeEnum.connector =>
      { tl with basic_connector_tasks := listInsertAt
                    (pyClamp position tl.basic_connector_tasks.length) task
                    tl.basic_connector_tasks }
  | TaskTypeEnum.stream =>
      { tl with stream_tasks := listInsertAt
                    (pyClamp position tl.stream_tasks.length) task tl.stream_tasks }
  | TaskTypeEnum.finalization =>
      { tl with finalization_tasks := listInsertAt
                    (pyClamp position tl.finalization_tasks.length) task
                    tl.finalization_tasks }

/-- Replace the first element satisfying `p` by its image under `f` (the pure
rendering of mutating, in place, the object found by a first-match scan). -/
def updFirst {α : Type} (p : α → Bool) (f : α → α) : List α → List α
  | [] => []
  | t :: ts => if p t then f t :: ts else t :: updFirst p f ts

/-- Apply `f` to the first task, in combined order, whose id is `task_id`
(the pure rendering of mutating the object returned by `get_task_by_id`). -/
def TaskList.updateFirstMatching (tl : TaskList) (task_id : String)
    (f : Task → Task) : TaskList :=
  if tl.basic_connector_tasks.any (fun t => t.id == task_id) then
    { tl with basic_connector_tasks := updFirst
                  (fun t => t.id == task_id) f tl.basic_connector_tasks }
  else if tl.stream_tasks.any (fun t => t.id == task_id) then
    { tl with stream_tasks := updFirst
                  (fun t => t.id == task_id) f tl.stream_tasks }
  else
    { tl with finalization_tasks := updFirst
                  (fun t => t.id == task_id) f tl.finalization_tasks }

/-- `TaskList.update_task_status`: look up (which raises when absent), then
`task.status = status; task.status_detail = status_detail; return True`.
The `.ok none` arm is the `if task:`-false fallthrough to the second
`raise ValueError` — a found task object is always truthy in Python. -/
def TaskList.update_task_status (tl : TaskList) (task_id : String)
    (status : TaskStatusEnum) (status_detail : Option String) :
    Except String (TaskList × Bool) :=
  match tl.get_task_by_id task_id with
  | Except.error e => Except.error e
  | Except.ok none => Except.error (notFoundMsg task_id)
  | Except.ok (some _) =>
      Except.ok
        (tl.updateFirstMatching task_id
          (fun t => { t with status := status, status_detail := status_detail }),
         true)

/-- Python `list.remove(x)`: remove the first element equal to `x`, raising
`ValueError` when no element is equal to it. -/
def pyListRemove (a : Task) : List Task → Except String (List Task)
  | [] => Except.error "list.remove(x): x not in list"
  | b :: bs =>
      if b = a then Except.ok bs
      else (pyListRemove a bs).map (fun r => b :: r)

/-- `TaskList.remove_task`: look up (which raises when absent), then
`seq.remove(task)` on the category sequence selected by the `isinstance`
switch, then `return True`. The `.ok none` arm is the unreachable
fallthrough raise, as in `update_task_status`. -/
def TaskList.remove_task (tl : TaskList) (task_id : String) :
    Except String (TaskList × Bool) :=
  match tl.get_task_by_id task_id with
  | Except.error e => Except.error e
  | Except.ok none => Except.error (notFoundMsg task_id)
  | Except.ok (some t) =>
      match t.task_type with
      | TaskTypeEnum.connector =>
          (pyListRemove t tl.basic_connector_tasks).map
            (fun l => ({ tl with basic_connector_tasks := l }, true))
      | TaskTypeEnum.stream =>
          (pyListRemove t tl.stream_tasks).map
            (fun l => ({ tl with stream_tasks := l }, true))
      | TaskTypeEnum.finalization =>
          (pyListRemove t tl.finalization_tasks).map
            (fun l => ({ tl with finalization_tasks := l }, true))

/-- The dictionary returned by `TaskList.get_summary`. -/
structure TaskSummary where
  total : Nat
  not_started : Nat
  in_progress : Nat
  completed : Nat
  blocked : Nat
deriving DecidableEq

/-- `TaskList.get_summary`: `len(self.tasks)` and one
`sum(1 for t in self.tasks if t.status == ...)` per status. -/
def TaskList.get_summary (tl : TaskList) : TaskSummary :=
  { total := tl.tasks.length
    not_started := tl.tasks.countP (fun t => t.status == TaskStatusEnum.not_started)
    in_progress := tl.tasks.countP (fun t => t.status == TaskStatusEnum.in_progress)
    completed := tl.tasks.countP (fun t => t.status == TaskStatusEnum.completed)
    blocked := tl.tasks.countP (fun t => t.status == TaskStatusEnum.blocked) }

/-- The category sequence of a `TaskList` for a given category. -/
def categoryList (tl : TaskList) : TaskTypeEnum → List Task
  | TaskTypeEnum.connector => tl.basic_connector_tasks
  | TaskTypeEnum.stream => tl.stream_tasks
  | TaskTypeEnum.finalization => tl.finalization_tasks

/-! ## `task_list.py` — the flat task list used by the chat-agent tools -/

namespace Flat

/-- The `Task` of `task_list.py` (the module's own `TaskStatus` enum has the
same four members as `TaskStatusEnum`, reused here; its status-detail field is
named `task_status_detail`; subclass identity is again the `task_type` tag). -/
structure Task where
  task_type : TaskTypeEnum
  id : String
  task_name : String
  description : Option String := none
  status : TaskStatusEnum := TaskStatusEnum.not_started
  task_status_detail : Option String := none
  stream_name : Option String := none
deriving DecidableEq

/-- The flat `TaskList` of `task_list.py`: one combined `tasks` sequence. -/
structure TaskList where
  name : String
  description : String
  tasks : List Task := []
deriving DecidableEq

/-- `TaskList.get_task_by_id` of the flat list: first match or `None`. -/
def TaskList.get_task_by_id (tl : TaskList) (task_id : String) : Option Task :=
  tl.tasks.find? (fun t => t.id == task_id)

/-- `TaskList.add_task`: `self.tasks.append(task)`. -/
def TaskList.add_task (tl : TaskList) (task : Task) : TaskList :=
  { tl with tasks := tl.tasks ++ [task] }

/-- `TaskList.insert_task`: `position = max(0, min(position, len(self.tasks)))`
then `self.tasks.insert(position, task)` — the clamp and the insertion are
relative to the whole combined sequence, not to the task's category. -/
def TaskList.insert_task (tl : TaskList) (position : Int) (task : Task) :
    TaskList :=
  { tl with tasks := listInsertAt
              (pyClamp position tl.tasks.length) task tl.tasks }

end Flat

/-! ## `chat_agent.py` — session dependencies and the tool surface -/

/-- The `SessionDeps` dataclass of `chat_agent.py` (the optional per-field
setter callbacks are not modelled: they carry no data). -/
structure SessionDeps where
  yaml_content : String
  connector_name : String
  source_api_name : String
  documentation_urls : String
  functional_requirements : String
  test_list : String
  task_list_json : String := ""
deriving DecidableEq

/-- The `MANIFEST_TOOLS` set. -/
def MANIFEST_TOOLS : List String :=
  ["execute_stream_test_read", "validate_manifest",
   "execute_record_counts_smoke_test", "execute_dynamic_manifest_resolution_test"]

/-- Python truthiness of `tool_args.get("manifest")` for a JSON-string-valued
argument: falsy when the key is absent or its value is the empty string. -/
def pyFalsyStrArg : Option String → Bool
  | none => true
  | some s => s == ""

/-- `process_tool_call`: tool arguments are modelled extensionally as a map
from argument name to optional (JSON string) value. A present `deps` dataclass
object is always truthy in Python, so `ctx.deps` tests `isSome`. When the tool
is a manifest tool and the agent's `manifest` argument is absent or empty, the
forwarded arguments are `{**tool_args, "manifest": ctx.deps.yaml_content}`;
otherwise the arguments are forwarded unchanged. -/
def process_tool_call (deps : Option SessionDeps) (name : String)
    (tool_args : String → Option String) : String → Option String :=
  match deps with
  | some d =>
      if MANIFEST_TOOLS.contains name then
        if pyFalsyStrArg (tool_args "manifest") then
          fun k => if k == "manifest" then some d.yaml_content else tool_args k
        else tool_args
      else tool_args
  | none => tool_args

/-! ### The manifest line-editing tools

Each tool reads `ctx.deps.yaml_content`; the two mutating tools write it back.
They are modelled as functions of the content; `EditResult` pairs the returned
message with the (possibly updated) content. All tool bodies sit inside a
`try/except` returning an error string, so no exception escapes; the models
are total functions. -/

/-- Result of a mutating manifest tool: the string returned to the agent and
the session's `yaml_content` after the call. -/
structure EditResult where
  message : String
  content : String
deriving DecidableEq

/-- `"Error: No YAML content available in session"`. -/
def noContentErr : String := "Error: " ++ "No YAML content available in session"

/-- `f"Error: start_line {sl} is out of range (content has {total} lines)"`. -/
def mkStartErr (sl : Int) (total : Nat) : String :=
  "Error: " ++ ("start_line " ++ toString sl ++ " is out of range (content has "
    ++ toString total ++ " lines)")

/-- `f"Error: end_line {el} is before start_line {sl}"`. -/
def mkEndBeforeErr (el sl : Int) : String :=
  "Error: " ++ ("end_line " ++ toString el ++ " is before start_line "
    ++ toString sl)

/-- `f"Error: end_line {el} is out of range (content has {total} lines)"`. -/
def mkEndRangeErr (el : Int) (total : Nat) : String :=
  "Error: " ++ ("end_line " ++ toString el ++ " is out of range (content has "
    ++ toString total ++ " lines)")

/-- `f"Error: line_number must be >= 1, got {ln}"`. -/
def mkLineNumErr (ln : Int) : String :=
  "Error: " ++ ("line_number must be >= 1, got " ++ toString ln)

/-- Python `f"{n:4d}"`: decimal, right-aligned in a field of width 4. -/
def pyFmt4d (n : Int) : String :=
  let s := toString n
  if s.length < 4 then String.mk (List.replicate (4 - s.length) ' ') ++ s else s

/-- The final step of `get_manifest_text`: optional numbering, then
`"\n".join(lines)`. `start_num = start_line if start_line is not None else 1`. -/
def gmtFinish (with_line_numbers : Bool) (start_line : Option Int)
    (lines : List String) : String :=
  if with_line_numbers then
    let start_num : Int := match start_line with | some sl => sl | none => 1
    joinNL (lines.enum.map
      (fun p => pyFmt4d ((p.1 : Int) + start_num) ++ " | " ++ p.2))
  else joinNL lines

/-- The `end_line` step of `get_manifest_text`, taking the lines already
sliced by the `start_line` step. The out-of-range bound in the source is
`len(lines) + (start_line - 1 if start_line else 0)` over the sliced lines,
and the reported total is the full line count. -/
def gmtEndStep (with_line_numbers : Bool) (start_line end_line : Option Int)
    (lines : List String) (total : Nat) : String :=
  match end_line with
  | some el =>
      let effective_start : Int := match start_line with | some sl => sl | none => 1
      let bound : Int := (lines.length : Int)
        + (match start_line with | some sl => sl - 1 | none => 0)
      if el < effective_start then mkEndBeforeErr el effective_start
      else if bound < el then mkEndRangeErr el total
      else gmtFinish with_line_numbers start_line
        (lines.take (el - effective_start + 1).toNat)
  | none => gmtFinish with_line_numbers start_line lines

/-- `get_manifest_text(with_line_numbers?, start_line?, end_line?)`, modelled
as a function of the session's `yaml_content` (read-only by construction). -/
def get_manifest_text (content : String) (with_line_numbers : Bool)
    (start_line end_line : Option Int) : String :=
  if content == "" then noContentErr
  else
    let lines := pySplitlines content
    match start_line with
    | some sl =>
        if sl < 1 || (lines.length : Int) < sl then mkStartErr sl lines.length
        else gmtEndStep with_line_numbers start_line end_line
          (lines.drop (sl - 1).toNat) lines.length
    | none => gmtEndStep with_line_numbers none end_line lines lines.length

/-- The success message of `insert_manifest_lines`. -/
def mkInsertOk (n : Nat) (ln : Int) : String :=
  "Successfully inserted " ++ toString n ++ " line(s) at line " ++ toString ln
    ++ ". The manifest has been updated and changes are visible in the UI."

/-- `insert_manifest_lines(line_number, lines)`: split the new text with
`splitlines()`, clamp `insert_pos = min(line_number - 1, len(file_lines))`,
splice, and store `"\n".join(result_lines)`. -/
def insert_manifest_lines (content : String) (line_number : Int)
    (lines : String) : EditResult :=
  if content == "" then { message := noContentErr, content := content }
  else
    let file_lines := pySplitlines content
    if line_number < 1 then
      { message := mkLineNumErr line_number, content := content }
    else
      let new_lines := pySplitlines lines
      let insert_pos := (min (line_number - 1) (file_lines.length : Int)).toNat
      { message := mkInsertOk new_lines.length line_number
        content := joinNL (file_lines.take insert_pos ++ new_lines
          ++ file_lines.drop insert_pos) }

/-- The success message of `replace_manifest_lines`. -/
def mkReplaceOk (nr : Int) (sl el : Int) (nn : Nat) : String :=
  "Successfully replaced " ++ toString nr ++ " line(s) (lines " ++ toString sl
    ++ "-" ++ toString el ++ ") with " ++ toString nn
    ++ " new line(s). The manifest has been updated and changes are visible in the UI."

/-- `replace_manifest_lines(start_line, end_line, new_lines)`: validate the
1-indexed inclusive range against `splitlines()` of the content, split the
replacement with `splitlines()`, splice, and store `"\n".join(result_lines)`. -/
def replace_manifest_lines (content : String) (start_line end_line : Int)
    (new_lines : String) : EditResult :=
  if content == "" then { message := noContentErr, content := content }
  else
    let file_lines := pySplitlines content
    if start_line < 1 || (file_lines.length : Int) < start_line then
      { message := mkStartErr start_line file_lines.length, content := content }
    else if end_line < start_line then
      { message := mkEndBeforeErr end_line start_line, content := content }
    else if (file_lines.length : Int) < end_line then
      { message := mkEndRangeErr end_line file_lines.length, content := content }
    else
      let replacement_lines := pySplitlines new_lines
      { message := mkReplaceOk (end_line - start_line + 1) start_line end_line
          replacement_lines.length
        content := joinNL (file_lines.take (start_line - 1).toNat
          ++ replacement_lines ++ file_lines.drop end_line.toNat) }

/-! ## `state/chat_agent_state.py` — the end-of-turn merge-back

`run_agent_workflow` builds the session from durable state, runs the agent,
and on normal completion compares session fields against durable state,
copying each differing one. `RunSession` carries the fields of the session
object as constructed there (its task list is the categorised `TaskList`);
`BuilderState` carries the durable UI fields read and written by the block. -/

/-- The session bundle as constructed in `run_agent_workflow`. -/
structure RunSession where
  yaml_content : String
  connector_name : String
  source_api_name : String
  documentation_urls : String
  functional_requirements : String
  test_list : String
  task_list : TaskList
deriving DecidableEq

/-- The durable UI fields touched by the merge-back block. -/
structure BuilderState where
  yaml_content : String
  connector_name : String
  source_api_name : String
  documentation_urls : String
  functional_requirements : String
  test_list : String
deriving DecidableEq

/-- The merge-back block at the end of `run_agent_workflow` (normal
completion): each `if session_deps.x != durable.x: durable.x = session_deps.x`
statement in source order. `ui_task_list` is `self.task_list : TaskList | None`;
comparing it against the session's task list is `some _ ≠ ui_task_list`. -/
def mergeBack (session : RunSession) (builder : BuilderState)
    (ui_task_list : Option TaskList) : BuilderState × Option TaskList :=
  let b1 := if session.yaml_content ≠ builder.yaml_content then
    { builder with yaml_content := session.yaml_content } else builder
  let t1 := if some session.task_list ≠ ui_task_list then
    some session.task_list else ui_task_list
  let b2 := if session.connector_name ≠ b1.connector_name then
    { b1 with connector_name := session.connector_name } else b1
  let b3 := if session.source_api_name ≠ b2.source_api_name then
    { b2 with source_api_name := session.source_api_name } else b2
  let b4 := if session.functional_requirements ≠ b3.functional_requirements then
    { b3 with functional_requirements := session.functional_requirements } else b3
  let b5 := if session.documentation_urls ≠ b4.documentation_urls then
    { b4 with documentation_urls := session.documentation_urls } else b4
  (b5, t1)

/-! ## Helper lemmas -/

lemma length_listInsertAt {α : Type} (i : Nat) (a : α) (l : List α) :
    (listInsertAt i a l).length = l.length + 1 := by
  simp [listInsertAt]; omega

lemma countP_listInsertAt {α : Type} (p : α → Bool) (i : Nat) (a : α)
    (l : List α) :
    (listInsertAt i a l).countP p = l.countP p + if p a then 1 else 0 := by
  simp only [listInsertAt, List.countP_append, List.countP_cons]
  have h := List.countP_append p (l.take i) (l.drop i)
  rw [List.take_append_drop] at h
  omega

lemma isErrorStr_errorPlus (r : String) : isErrorStr ("Error: " ++ r) = true := by
  simp only [isErrorStr]
  rw [show ("Error: " ++ r).data = "Error: ".data ++ r.data from rfl,
    List.take_append_of_le_length (by decide)]
  decide

lemma splitOnP_forall_not {α : Type} (p : α → Bool) (xs : List α) :
    ∀ l ∈ xs.splitOnP p, ∀ x ∈ l, ¬ p x := by
  induction xs with
  | nil =>
      intro l hl
      rw [List.splitOnP_nil] at hl
      simp only [List.mem_singleton] at hl
      subst hl
      simp
  | cons a as ih =>
      intro l hl
      rw [List.splitOnP_cons] at hl
      by_cases hpa : p a
      · rw [if_pos hpa] at hl
        rcases List.mem_cons.mp hl with rfl | hl
        · simp
        · exact ih l hl
      · rw [if_neg hpa] at hl
        cases hsp : as.splitOnP p with
        | nil => exact absurd hsp (List.splitOnP_ne_nil p as)
        | cons h0 rest =>
            rw [hsp] at hl
            simp only [List.modifyHead] at hl
            rcases List.mem_cons.mp hl with rfl | hl
            · intro x hx
              rcases List.mem_cons.mp hx with rfl | hx
              · exact hpa
              · exact ih h0 (by rw [hsp]; exact List.mem_cons_self _ _) x hx
            · exact ih l (by rw [hsp]; exact List.mem_cons_of_mem _ hl)

lemma splitOn_not_mem {α : Type} [DecidableEq α] (x : α) (cs : List α) :
    ∀ l ∈ cs.splitOn x, x ∉ l := by
  intro l hl hx
  have := splitOnP_forall_not (fun y => y == x) cs l hl x hx
  simp at this

lemma pySplitlines_not_mem_nl (s : String) :
    ∀ x ∈ pySplitlines s, ('\n') ∉ x.data := by
  intro x hx
  unfold pySplitlines at hx
  split at hx
  · obtain ⟨l, hl, rfl⟩ := List.mem_map.mp hx
    exact splitOn_not_mem _ _ l (List.dropLast_subset _ hl)
  · split at hx
    · simp at hx
    · obtain ⟨l, hl, rfl⟩ := List.mem_map.mp hx
      exact splitOn_not_mem _ _ l hl

lemma intercalate_getLast?_of_ne_nil {α : Type} (sep : List α) :
    ∀ (ls : List (List α)) (l : List α), ls.getLast? = some l → l ≠ [] →
      (List.intercalate sep ls).getLast? = l.getLast? := by
  intro ls
  induction ls with
  | nil => intro l h; simp at h
  | cons a rest ih =>
      intro l h hne
      cases rest with
      | nil =>
          rw [List.getLast?_singleton] at h
          obtain rfl : a = l := by injection h
          simp [List.intercalate]
      | cons b rest2 =>
          have hrest : (b :: rest2).getLast? = some l := by
            rw [← List.getLast?_cons_cons (a := a)]
            exact h
          have hIH := ih l hrest hne
          have hunf : List.intercalate sep (a :: b :: rest2)
              = a ++ (sep ++ List.intercalate sep (b :: rest2)) := by
            simp [List.intercalate]
          rw [hunf, List.getLast?_append, List.getLast?_append, hIH]
          cases hc : l.getLast? with
          | none => exact absurd (List.getLast?_eq_none_iff.mp hc) hne
          | some c => rfl

lemma pySplitlines_joinNL (ls : List String)
    (h1 : ∀ s ∈ ls, ('\n') ∉ s.data) (h2 : ls.getLast? ≠ some "") :
    pySplitlines (joinNL ls) = ls := by
  cases hls : ls.getLast? with
  | none =>
      obtain rfl := List.getLast?_eq_none_iff.mp hls
      rfl
  | some lastS =>
      have hlastne : lastS ≠ "" := fun h => h2 (h ▸ hls)
      have hlastmem : lastS ∈ ls := List.mem_of_mem_getLast? hls
      have hlsne : ls ≠ [] := by rintro rfl; simp at hls
      have hdatane : lastS.data ≠ [] := by
        intro h
        exact hlastne (by cases lastS; simp_all)
      have hmapLast : (ls.map String.data).getLast? = some lastS.data := by
        rw [List.getLast?_map, hls]; rfl
      have hjoinLast : (List.intercalate ['\n'] (ls.map String.data)).getLast?
          = lastS.data.getLast? :=
        intercalate_getLast?_of_ne_nil _ _ _ hmapLast hdatane
      obtain ⟨c, hc⟩ : ∃ c, lastS.data.getLast? = some c := by
        cases h : lastS.data.getLast? with
        | none => exact absurd (List.getLast?_eq_none_iff.mp h) hdatane
        | some c => exact ⟨c, rfl⟩
      have hcne : c ≠ '\n' := by
        intro h
        subst h
        exact h1 lastS hlastmem (List.mem_of_mem_getLast? hc)
      have hjoinne : List.intercalate ['\n'] (ls.map String.data) ≠ [] := by
        intro h
        rw [h] at hjoinLast
        rw [hc] at hjoinLast
        simp at hjoinLast
      unfold pySplitlines joinNL
      rw [show (String.mk (List.intercalate ['\n'] (ls.map String.data))).data
        = List.intercalate ['\n'] (ls.map String.data) from rfl]
      rw [hjoinLast, hc]
      rw [if_neg (by simpa using hcne)]
      rw [if_neg (by simpa using hjoinne)]
      have hsplit : (List.intercalate ['\n'] (ls.map String.data)).splitOn '\n'
          = ls.map String.data := by
        have hx : ∀ l ∈ ls.map String.data, ('\n') ∉ l := by
          intro l hl
          obtain ⟨s, hs, rfl⟩ := List.mem_map.mp hl
          exact h1 s hs
        have hmapne : ls.map String.data ≠ [] := by simpa using hlsne
        exact List.splitOn_intercalate (ls.map String.data) '\n' hx hmapne
      rw [hsplit]
      rw [List.map_map]
      have : (String.mk ∘ String.data) = (id : String → String) := by
        funext s; cases s; rfl
      rw [this, List.map_id]

lemma updFirst_of_not_any {α : Type} {p : α → Bool} {f : α → α} {l : List α}
    (h : ∀ u ∈ l, ¬ p u) : updFirst p f l = l := by
  induction l with
  | nil => rfl
  | cons a l ih =>
      have ha := h a (List.mem_cons_self a l)
      simp only [updFirst, ha, if_neg, Bool.not_eq_true] at *
      simp [ha, ih fun u hu => h u (List.mem_cons_of_mem a hu)]

lemma updFirst_append {α : Type} (p : α → Bool) (f : α → α) (l1 l2 : List α) :
    updFirst p f (l1 ++ l2)
      = if l1.any p then updFirst p f l1 ++ l2 else l1 ++ updFirst p f l2 := by
  induction l1 with
  | nil => simp
  | cons a l ih =>
      by_cases h : p a
      · simp [updFirst, h]
      · simp only [List.cons_append, updFirst, h, if_neg, Bool.false_eq_true,
          not_false_iff, ih, List.any_cons, Bool.false_or]
        split <;> rename_i hs
        · rw [List.append_eq, ih, if_pos hs]
        · rw [List.append_eq, ih, if_neg hs]

lemma updFirst_split {α : Type} (p : α → Bool) (f : α → α) (pre post : List α)
    (t : α) (hpre : ∀ u ∈ pre, ¬ p u) (ht : p t) :
    updFirst p f (pre ++ t :: post) = pre ++ f t :: post := by
  induction pre with
  | nil => simp [updFirst, ht]
  | cons a l ih =>
      have ha := hpre a (List.mem_cons_self a l)
      simp only [List.cons_append, updFirst, ha, if_neg, Bool.not_eq_true]
      simp [ha, ih fun u hu => hpre u (List.mem_cons_of_mem a hu)]

lemma updateFirstMatching_tasks (tl : TaskList) (tid : String)
    (f : Task → Task) :
    (tl.updateFirstMatching tid f).tasks
      = updFirst (fun t => t.id == tid) f tl.tasks := by
  unfold TaskList.updateFirstMatching TaskList.tasks
  by_cases h1 : tl.basic_connector_tasks.any (fun t => t.id == tid) <;>
    by_cases h2 : tl.stream_tasks.any (fun t => t.id == tid) <;>
      simp [h1, h2, updFirst_append]

lemma find?_split {α : Type} (p : α → Bool) (pre post : List α) (t : α)
    (hpre : ∀ u ∈ pre, ¬ p u) (ht : p t) :
    (pre ++ t :: post).find? p = some t := by
  induction pre with
  | nil => simpa using List.find?_cons_of_pos post ht
  | cons a l ih =>
      rw [List.cons_append,
        List.find?_cons_of_neg _ (hpre a (List.mem_cons_self a l))]
      exact ih fun u hu => hpre u (List.mem_cons_of_mem a hu)

lemma find?_eq_some_split {α : Type} {p : α → Bool} {l : List α} {t : α}
    (h : l.find? p = some t) :
    ∃ pre post, l = pre ++ t :: post ∧ ∀ u ∈ pre, ¬ p u := by
  obtain ⟨-, pre, post, rfl, hpre⟩ := List.find?_eq_some.mp h
  exact ⟨pre, post, rfl, fun u hu => by simpa using hpre u hu⟩

lemma pyListRemove_ok_of_mem {a : Task} {l : List Task} (h : a ∈ l) :
    ∃ l2, pyListRemove a l = Except.ok l2 := by
  induction l with
  | nil => simp at h
  | cons b bs ih =>
      by_cases hb : b = a
      · exact ⟨bs, by simp [pyListRemove, hb]⟩
      · have ha : a ∈ bs := by
          rcases List.mem_cons.mp h with rfl | hm
          · exact absurd rfl hb
          · exact hm
        obtain ⟨l2, hl2⟩ := ih ha
        exact ⟨b :: l2, by simp [pyListRemove, hb, hl2, Except.map]⟩

lemma countP_status_partition (l : List Task) :
    l.countP (fun t => t.status == TaskStatusEnum.not_started)
      + l.countP (fun t => t.status == TaskStatusEnum.in_progress)
      + l.countP (fun t => t.status == TaskStatusEnum.completed)
      + l.countP (fun t => t.status == TaskStatusEnum.blocked)
      = l.length := by
  induction l with
  | nil => rfl
  | cons t ts ih =>
      simp only [List.countP_cons, List.length_cons]
      cases h : t.status <;> simp [h] <;> omega

/-! ## Concrete task lists and sessions used by counterexamples and witnesses -/

/-- An existing connector task with id `"a"`. -/
def dupBase : Task :=
  { task_type := TaskTypeEnum.connector, id := "a", task_name := "first" }

/-- A task list already containing a task with id `"a"`. -/
def dupTL : TaskList := { basic_connector_tasks := [dupBase] }

/-- A second connector task reusing the id `"a"`. -/
def dupNew : Task :=
  { task_type := TaskTypeEnum.connector, id := "a", task_name := "second" }

/-- A session whose final `test_list` differs from the durable one while all
other fields agree. -/
def c2Session : RunSession :=
  { yaml_content := "y", connector_name := "c", source_api_name := "s",
    documentation_urls := "d", functional_requirements := "f",
    test_list := "agent tests", task_list := {} }

/-- The durable UI fields matching `c2Session` everywhere except `test_list`. -/
def c2Builder : BuilderState :=
  { yaml_content := "y", connector_name := "c", source_api_name := "s",
    documentation_urls := "d", functional_requirements := "f", test_list := "" }

/-- A connector task in the flat list. -/
def flatConn : Flat.Task :=
  { task_type := TaskTypeEnum.connector, id := "c1", task_name := "c" }

/-- A stream task in the flat list. -/
def flatS1 : Flat.Task :=
  { task_type := TaskTypeEnum.stream, id := "s1", task_name := "s",
    stream_name := some "u" }

/-- A second stream task, to be inserted. -/
def flatS2 : Flat.Task :=
  { task_type := TaskTypeEnum.stream, id := "s2", task_name := "s2",
    stream_name := some "u" }

/-- A flat task list holding a connector task then a stream task. -/
def flatTL : Flat.TaskList :=
  { name := "n", description := "d", tasks := [flatConn, flatS1] }

/-- A stream task of the categorised model. -/
def mS1 : Task :=
  { task_type := TaskTypeEnum.stream, id := "m1", task_name := "x",
    stream_name := some "u" }

/-- A second stream task of the categorised model. -/
def mS2 : Task :=
  { task_type := TaskTypeEnum.stream, id := "m2", task_name := "y",
    stream_name := some "u" }

/-- A categorised task list with a single stream task. -/
def c8mTL : TaskList := { stream_tasks := [mS1] }

/-! ## Claims -/

/-- **C1, counterexample.** The id `"a"` is already present in `dupTL`, yet
`append_task` and `insert_task` succeed (they cannot fail — no duplicate-id
check exists) and the list grows from one task to two. -/
theorem claim_C1_counterexample :
    (dupTL.tasks.map Task.id).contains "a" = true
    ∧ (dupTL.append_task dupNew).tasks.length = 2
    ∧ (dupTL.insert_task 0 dupNew).tasks.length = 2
    ∧ dupTL.tasks.length = 1 := by decide

/-- **C1, amended.** Neither `TaskList` implementation checks for duplicate
ids: for every task list and every task `t` — in particular one whose id
already occurs — `append_task`/`insert_task` (categorised model) and
`add_task` (flat model) succeed, the list gains exactly one element, and the
number of tasks bearing `t`'s id grows by one (so duplicates accumulate). -/
theorem claim_C1 (tl : TaskList) (t : Task) (pos : Int) (fl : Flat.TaskList)
    (ft : Flat.Task) :
    ((tl.append_task t).tasks.length = tl.tasks.length + 1)
    ∧ ((tl.append_task t).tasks.countP (fun u => u.id == t.id)
        = tl.tasks.countP (fun u => u.id == t.id) + 1)
    ∧ ((tl.insert_task pos t).tasks.length = tl.tasks.length + 1)
    ∧ ((tl.insert_task pos t).tasks.countP (fun u => u.id == t.id)
        = tl.tasks.countP (fun u => u.id == t.id) + 1)
    ∧ (fl.add_task ft).tasks = fl.tasks ++ [ft] := by
  refine ⟨?_, ?_, ?_, ?_, rfl⟩ <;>
    cases h : t.task_type <;>
      simp [TaskList.append_task, TaskList.insert_task, TaskList.tasks, h,
        List.countP_append, List.countP_cons, length_listInsertAt,
        countP_listInsertAt] <;>
      omega

/-- **C2, counterexample.** After a normal agent run, a session `test_list`
that differs from the durable value is not copied back: the merge-back block
of `run_agent_workflow` has no branch for `test_list`. -/
theorem claim_C2_counterexample :
    c2Session.test_list ≠ c2Builder.test_list
    ∧ (mergeBack c2Session c2Builder (some c2Session.task_list)).1.test_list
        = c2Builder.test_list := by decide

/-- **C2, amended.** On normal completion the merge-back block leaves every
durable field equal to the session's final value for the manifest text, the
task list, the connector name, the source API name, the functional
requirements and the documentation URLs (each copied exactly when it differs,
which extensionally pins the final value to the session's); the `test_list`
metadata field is never merged back and keeps its prior durable value. -/
theorem claim_C2 (s : RunSession) (b : BuilderState) (utl : Option TaskList) :
    (mergeBack s b utl).1.yaml_content = s.yaml_content
    ∧ (mergeBack s b utl).2 = some s.task_list
    ∧ (mergeBack s b utl).1.connector_name = s.connector_name
    ∧ (mergeBack s b utl).1.source_api_name = s.source_api_name
    ∧ (mergeBack s b utl).1.functional_requirements = s.functional_requirements
    ∧ (mergeBack s b utl).1.documentation_urls = s.documentation_urls
    ∧ (mergeBack s b utl).1.test_list = b.test_list := by
  unfold mergeBack
  dsimp only
  split_ifs <;> simp_all

/-- **C4.** `process_tool_call` forwards the agent's arguments with
`manifest := yaml_content` exactly when the tool is one of the four manifest
tools and the agent's `manifest` argument is absent or empty; in every other
case the arguments are forwarded unchanged. -/
theorem claim_C4 (d : SessionDeps) (name : String)
    (args : String → Option String) (k : String) :
    (MANIFEST_TOOLS.contains name = true →
      pyFalsyStrArg (args "manifest") = true →
      process_tool_call (some d) name args k
        = if k == "manifest" then some d.yaml_content else args k)
    ∧ (MANIFEST_TOOLS.contains name = true →
      pyFalsyStrArg (args "manifest") = false →
      process_tool_call (some d) name args k = args k)
    ∧ (MANIFEST_TOOLS.contains name = false →
      process_tool_call (some d) name args k = args k) := by
  refine ⟨?_, ?_, ?_⟩
  · intro h1 h2
    have hm : name ∈ MANIFEST_TOOLS := by simpa using h1
    simp [process_tool_call, hm, h2]
  · intro h1 h2
    have hm : name ∈ MANIFEST_TOOLS := by simpa using h1
    simp [process_tool_call, hm, h2]
  · intro h1
    have hm : name ∉ MANIFEST_TOOLS := by simpa using h1
    simp [process_tool_call, hm]

/-- A concrete session for the C4 witness. -/
def c4Deps : SessionDeps :=
  { yaml_content := "manifest: text", connector_name := "", source_api_name := "",
    documentation_urls := "", functional_requirements := "", test_list := "" }

/-- Concrete agent-supplied arguments for the C4 witness (a `config` value,
no `manifest`). -/
def c4Args : String → Option String :=
  fun k => if k == "config" then some "cfg" else none

/-- **C4, witness.** For `validate_manifest` with no `manifest` argument the
session manifest is injected and `config` is preserved; for another tool the
arguments pass through unchanged. -/
theorem claim_C4_witness :
    process_tool_call (some c4Deps) "validate_manifest" c4Args "manifest"
      = some "manifest: text"
    ∧ process_tool_call (some c4Deps) "validate_manifest" c4Args "config"
      = some "cfg"
    ∧ process_tool_call (some c4Deps) "other_tool" c4Args "manifest" = none := by
  refine ⟨?_, ?_, ?_⟩
  · have h := (claim_C4 c4Deps "validate_manifest" c4Args "manifest").1
      (by decide) (by decide)
    rw [h]; decide
  · have h := (claim_C4 c4Deps "validate_manifest" c4Args "config").1
      (by decide) (by decide)
    rw [h]; decide
  · have h := (claim_C4 c4Deps "other_tool" c4Args "manifest").2.2 (by decide)
    rw [h]; decide

/-- **C8, counterexample.** In the flat `TaskList` (the one driven by the
chat-agent tools), inserting the stream task `flatS2` at position `1` into a
list holding a connector task and one stream task places it at index 0 of the
stream category, not at the claimed clamped index 1 (the position is relative
to the whole combined list, so it lands between the connector task and the
existing stream task). -/
theorem claim_C8_counterexample :
    ((flatTL.insert_task 1 flatS2).tasks.filter
        (fun t => t.task_type == TaskTypeEnum.stream)) = [flatS2, flatS1]
    ∧ pyClamp 1
        ((flatTL.tasks.filter
          (fun t => t.task_type == TaskTypeEnum.stream)).length) = 1
    ∧ ([flatS2, flatS1] : List Flat.Task) ≠ [flatS1, flatS2] := by decide

/-- **C8, amended.** In the categorised `TaskList` of `models/task_list.py`
the insert position is 0-indexed relative to the task's own category sequence
and clamped to `[0, len]` of that sequence, the task appearing there at the
clamped index while the other category sequences are untouched; in the flat
`TaskList` of `task_list.py` the position is instead relative to the whole
combined sequence and clamped to `[0, len(tasks)]`. -/
theorem claim_C8 (tl : TaskList) (pos : Int) (t : Task) (fl : Flat.TaskList)
    (ft : Flat.Task) :
    categoryList (tl.insert_task pos t) t.task_type
      = listInsertAt (pyClamp pos (categoryList tl t.task_type).length) t
          (categoryList tl t.task_type)
    ∧ pyClamp pos (categoryList tl t.task_type).length
        ≤ (categoryList tl t.task_type).length
    ∧ (∀ c, c ≠ t.task_type →
        categoryList (tl.insert_task pos t) c = categoryList tl c)
    ∧ (fl.insert_task pos ft).tasks
        = listInsertAt (pyClamp pos fl.tasks.length) ft fl.tasks
    ∧ pyClamp pos fl.tasks.length ≤ fl.tasks.length := by
  refine ⟨?_, ?_, ?_, rfl, ?_⟩
  · cases h : t.task_type <;>
      simp [TaskList.insert_task, categoryList, h]
  · simp only [pyClamp]
    omega
  · intro c hc
    cases h : t.task_type <;> cases c <;>
      simp_all [TaskList.insert_task, categoryList]
  · simp only [pyClamp]
    omega

/-- **C8, witness.** Inserting the stream task `mS2` at position 5 into a
categorised list whose stream sequence holds one task clamps to the end of the
stream sequence and leaves the connector sequence empty. -/
theorem claim_C8_witness :
    categoryList (c8mTL.insert_task 5 mS2) TaskTypeEnum.stream = [mS1, mS2]
    ∧ categoryList (c8mTL.insert_task 5 mS2) TaskTypeEnum.connector = [] := by
  have h := claim_C8 c8mTL 5 mS2 { name := "n", description := "d" } flatS1
  refine ⟨?_, ?_⟩
  · have h1 := h.1
    simp only [show mS2.task_type = TaskTypeEnum.stream from rfl] at h1
    rw [h1]; decide
  · have h2 := h.2.2.1 TaskTypeEnum.connector (by decide)
    rw [h2]; decide

/-- The error condition of `get_manifest_text`, as the claim states it: no
content available; `start_line` outside `[1, total]`; `end_line` before the
effective start; or `end_line` beyond the total line count. -/
def gmtIsError (content : String) (sl? el? : Option Int) : Bool :=
  (content == "")
  || (match sl? with
      | some sl =>
          decide (sl < 1) || decide (((pySplitlines content).length : Int) < sl)
      | none => false)
  || (match el? with
      | some el =>
          decide (el < sl?.getD 1)
            || decide (((pySplitlines content).length : Int) < el)
      | none => false)

/-- **C5.** `get_manifest_text` reports failure (an `Error:`-prefixed string —
the embedding is a total function, so no exception can escape) exactly under
the stated conditions (`gmtIsError`), and otherwise returns the requested
inclusive 1-indexed slice `[start, end]` of the manifest's lines (the whole
remainder when `end_line` is omitted), joined with newlines, each line
prefixed with its right-aligned 1-indexed number when `with_line_numbers` is
set. -/
theorem claim_C5 (content : String) (wln : Bool) (sl? el? : Option Int) :
    (gmtIsError content sl? el? = true →
      isErrorStr (get_manifest_text content wln sl? el?) = true)
    ∧ (gmtIsError content sl? el? = false → wln = false →
      get_manifest_text content wln sl? el?
        = joinNL (((pySplitlines content).drop ((sl?.getD 1) - 1).toNat).take
            ((el?.getD ((pySplitlines content).length : Int))
              - sl?.getD 1 + 1).toNat))
    ∧ (gmtIsError content sl? el? = false → wln = true →
      get_manifest_text content wln sl? el?
        = joinNL ((((pySplitlines content).drop ((sl?.getD 1) - 1).toNat).take
            ((el?.getD ((pySplitlines content).length : Int))
              - sl?.getD 1 + 1).toNat).enum.map
              (fun p => pyFmt4d ((p.1 : Int) + sl?.getD 1) ++ " | " ++ p.2))) := by
  by_cases hc : content = ""
  · subst hc
    refine ⟨fun _ => ?_, ?_, ?_⟩
    · rw [show get_manifest_text "" wln sl? el? = noContentErr from rfl]
      exact isErrorStr_errorPlus _
    · intro h
      simp [gmtIsError] at h
    · intro h
      simp [gmtIsError] at h
  · have hcb : (content == "") = false := by simpa using hc
    have hgmt : get_manifest_text content wln sl? el?
        = match sl? with
          | some sl =>
              if (decide (sl < 1)
                  || decide (((pySplitlines content).length : Int) < sl)) = true
              then mkStartErr sl (pySplitlines content).length
              else gmtEndStep wln sl? el?
                ((pySplitlines content).drop (sl - 1).toNat)
                (pySplitlines content).length
          | none => gmtEndStep wln none el? (pySplitlines content)
              (pySplitlines content).length := by
      unfold get_manifest_text
      rw [hcb]
      rfl
    rcases sl? with _ | sl
    · -- start_line omitted: effective start 1
      rcases el? with _ | el
      · -- both omitted: never an error; result is the whole content
        have hz : gmtIsError content none none = false := by
          simp [gmtIsError, hcb]
        have hval : get_manifest_text content wln none none
            = gmtFinish wln none (pySplitlines content) := by
          rw [hgmt]
          rfl
        have htake : (pySplitlines content).take
              ((((pySplitlines content).length : Int)) - 1 + 1).toNat
            = pySplitlines content := by
          apply List.take_of_length_le
          omega
        refine ⟨?_, ?_, ?_⟩
        · intro h
          rw [hz] at h
          exact Bool.noConfusion h
        · intro _ hw
          subst hw
          rw [hval]
          unfold gmtFinish
          rw [if_neg (by simp)]
          rw [Option.getD_none, Option.getD_none,
            show ((1 : Int) - 1).toNat = 0 from rfl, List.drop_zero, htake]
        · intro _ hw
          subst hw
          rw [hval]
          unfold gmtFinish
          rw [if_pos rfl]
          rw [Option.getD_none, Option.getD_none,
            show ((1 : Int) - 1).toNat = 0 from rfl, List.drop_zero, htake]
      · -- only end_line given
        have hval : get_manifest_text content wln none (some el)
            = gmtEndStep wln none (some el) (pySplitlines content)
                (pySplitlines content).length := by
          rw [hgmt]
        have hend : gmtEndStep wln none (some el) (pySplitlines content)
              (pySplitlines content).length
            = if el < 1 then mkEndBeforeErr el 1
              else if ((pySplitlines content).length : Int) + 0 < el then
                mkEndRangeErr el (pySplitlines content).length
              else gmtFinish wln none
                ((pySplitlines content).take (el - 1 + 1).toNat) := rfl
        by_cases h1 : el < 1
        · have hz : gmtIsError content none (some el) = true := by
            simp [gmtIsError, hcb]
            omega
          refine ⟨fun _ => ?_, ?_, ?_⟩
          · rw [hval, hend, if_pos h1]
            exact isErrorStr_errorPlus _
          · intro h
            rw [hz] at h
            exact Bool.noConfusion h
          · intro h
            rw [hz] at h
            exact Bool.noConfusion h
        · by_cases h2 : ((pySplitlines content).length : Int) < el
          · have hz : gmtIsError content none (some el) = true := by
              simp [gmtIsError, hcb]
              omega
            refine ⟨fun _ => ?_, ?_, ?_⟩
            · rw [hval, hend, if_neg h1, if_pos (by omega)]
              exact isErrorStr_errorPlus _
            · intro h
              rw [hz] at h
              exact Bool.noConfusion h
            · intro h
              rw [hz] at h
              exact Bool.noConfusion h
          · have hz : gmtIsError content none (some el) = false := by
              simp [gmtIsError, hcb]
              omega
            refine ⟨?_, ?_, ?_⟩
            · intro h
              rw [hz] at h
              exact Bool.noConfusion h
            · intro _ hw
              subst hw
              rw [hval, hend, if_neg h1, if_neg (by omega)]
              unfold gmtFinish
              rw [if_neg (by simp)]
              rw [Option.getD_some, Option.getD_none,
                show ((1 : Int) - 1).toNat = 0 from rfl, List.drop_zero]
            · intro _ hw
              subst hw
              rw [hval, hend, if_neg h1, if_neg (by omega)]
              unfold gmtFinish
              rw [if_pos rfl]
              rw [Option.getD_some, Option.getD_none,
                show ((1 : Int) - 1).toNat = 0 from rfl, List.drop_zero]
    · -- start_line given
      by_cases h1 : sl < 1 ∨ ((pySplitlines content).length : Int) < sl
      · have hz : gmtIsError content (some sl) el? = true := by
          simp [gmtIsError, hcb]
          omega
        refine ⟨fun _ => ?_, ?_, ?_⟩
        · rw [hgmt]
          dsimp only
          rw [if_pos (by simpa using h1)]
          exact isErrorStr_errorPlus _
        · intro h
          rw [hz] at h
          exact Bool.noConfusion h
        · intro h
          rw [hz] at h
          exact Bool.noConfusion h
      · push_neg at h1
        obtain ⟨hsl1, hsl2⟩ := h1
        have hslval : get_manifest_text content wln (some sl) el?
            = gmtEndStep wln (some sl) el?
                ((pySplitlines content).drop (sl - 1).toNat)
                (pySplitlines content).length := by
          rw [hgmt]
          dsimp only
          rw [if_neg (by simp; omega)]
        have hk : (sl - 1).toNat ≤ (pySplitlines content).length := by omega
        have hdroplen : (((pySplitlines content).drop (sl - 1).toNat).length : Int)
            = ((pySplitlines content).length : Int) - (sl - 1) := by
          rw [List.length_drop, Nat.cast_sub hk]
          omega
        rcases el? with _ | el
        · -- end omitted
          have hz : gmtIsError content (some sl) none = false := by
            simp [gmtIsError, hcb]
            omega
          have hval2 : gmtEndStep wln (some sl) none
                ((pySplitlines content).drop (sl - 1).toNat)
                (pySplitlines content).length
              = gmtFinish wln (some sl)
                  ((pySplitlines content).drop (sl - 1).toNat) := rfl
          have htake : ((pySplitlines content).drop (sl - 1).toNat).take
                ((((pySplitlines content).length : Int)) - sl + 1).toNat
              = (pySplitlines content).drop (sl - 1).toNat := by
            apply List.take_of_length_le
            omega
          refine ⟨?_, ?_, ?_⟩
          · intro h
            rw [hz] at h
            exact Bool.noConfusion h
          · intro _ hw
            subst hw
            rw [hslval, hval2]
            unfold gmtFinish
            rw [if_neg (by simp)]
            rw [Option.getD_some, Option.getD_none, htake]
          · intro _ hw
            subst hw
            rw [hslval, hval2]
            unfold gmtFinish
            rw [if_pos rfl]
            rw [Option.getD_some, Option.getD_none, htake]
        · -- end given
          have hval2 : gmtEndStep wln (some sl) (some el)
                ((pySplitlines content).drop (sl - 1).toNat)
                (pySplitlines content).length
              = if el < sl then mkEndBeforeErr el sl
                else if (((pySplitlines content).drop (sl - 1).toNat).length : Int)
                    + (sl - 1) < el then
                  mkEndRangeErr el (pySplitlines content).length
                else gmtFinish wln (some sl)
                  (((pySplitlines content).drop (sl - 1).toNat).take
                    (el - sl + 1).toNat) := rfl
          by_cases h2 : el < sl
          · have hz : gmtIsError content (some sl) (some el) = true := by
              simp [gmtIsError, hcb]
              omega
            refine ⟨fun _ => ?_, ?_, ?_⟩
            · rw [hslval, hval2, if_pos h2]
              exact isErrorStr_errorPlus _
            · intro h
              rw [hz] at h
              exact Bool.noConfusion h
            · intro h
              rw [hz] at h
              exact Bool.noConfusion h
          · by_cases h3 : ((pySplitlines content).length : Int) < el
            · have hz : gmtIsError content (some sl) (some el) = true := by
                simp [gmtIsError, hcb]
                omega
              refine ⟨fun _ => ?_, ?_, ?_⟩
              · rw [hslval, hval2, if_neg h2, if_pos (by omega)]
                exact isErrorStr_errorPlus _
              · intro h
                rw [hz] at h
                exact Bool.noConfusion h
              · intro h
                rw [hz] at h
                exact Bool.noConfusion h
            · have hz : gmtIsError content (some sl) (some el) = false := by
                simp [gmtIsError, hcb]
                omega
              refine ⟨?_, ?_, ?_⟩
              · intro h
                rw [hz] at h
                exact Bool.noConfusion h
              · intro _ hw
                subst hw
                rw [hslval, hval2, if_neg h2, if_neg (by omega)]
                unfold gmtFinish
                rw [if_neg (by simp)]
                rw [Option.getD_some, Option.getD_some]
              · intro _ hw
                subst hw
                rw [hslval, hval2, if_neg h2, if_neg (by omega)]
                unfold gmtFinish
                rw [if_pos rfl]
                rw [Option.getD_some, Option.getD_some]

/-- **C5, witness.** Scenario 1 of the spec — the empty manifest yields an
`Error:` string — and a successful slice read `[2, 3]` of `"a\nb\nc"`. -/
theorem claim_C5_witness :
    isErrorStr (get_manifest_text "" false none none) = true
    ∧ get_manifest_text "a\nb\nc" false (some 2) (some 3) = "b\nc" := by
  constructor
  · exact (claim_C5 "" false none none).1 (by decide)
  · have h := (claim_C5 "a\nb\nc" false (some 2) (some 3)).2.1 (by decide) rfl
    rw [h]
    decide

/-- **C6, counterexample.** On the empty manifest `""`,
`insert_manifest_lines(1, "X")` does not insert (the claim's reading would
yield `"X"`): it returns an `Error:` string (`no content available`) and
leaves the manifest unchanged, although `line_number = 1 ≥ 1`. -/
theorem claim_C6_counterexample :
    (insert_manifest_lines "" 1 "X").content = ""
    ∧ isErrorStr (insert_manifest_lines "" 1 "X").message = true
    ∧ ("" : String) ≠ "X" := by decide

/-- **C6, amended.** `insert_manifest_lines(line_number, text)` fails with an
`Error:` string and leaves the manifest unchanged when the manifest is empty
or when `line_number < 1`; on a nonempty manifest with `line_number ≥ 1` it
splits `text` into lines (Python `splitlines`) and splices them immediately
before the 1-indexed `line_number`, positions beyond the end clamping to an
append (the insertion index is `line_number - 1` when that is within the
line count, and the line count itself beyond it). -/
theorem claim_C6 (content text : String) (ln : Int) :
    (content = "" →
      (insert_manifest_lines content ln text).content = content
      ∧ isErrorStr (insert_manifest_lines content ln text).message = true)
    ∧ (content ≠ "" → ln < 1 →
      (insert_manifest_lines content ln text).content = content
      ∧ isErrorStr (insert_manifest_lines content ln text).message = true)
    ∧ (content ≠ "" → 1 ≤ ln →
      (insert_manifest_lines content ln text).content
          = joinNL ((pySplitlines content).take
                (min (ln - 1) ((pySplitlines content).length : Int)).toNat
              ++ pySplitlines text
              ++ (pySplitlines content).drop
                (min (ln - 1) ((pySplitlines content).length : Int)).toNat)
        ∧ (min (ln - 1) ((pySplitlines content).length : Int)).toNat
            ≤ (pySplitlines content).length
        ∧ (ln - 1 ≤ ((pySplitlines content).length : Int) →
            (min (ln - 1) ((pySplitlines content).length : Int)).toNat
              = (ln - 1).toNat)
        ∧ (((pySplitlines content).length : Int) < ln - 1 →
            (min (ln - 1) ((pySplitlines content).length : Int)).toNat
              = (pySplitlines content).length)) := by
  refine ⟨?_, ?_, ?_⟩
  · intro h
    subst h
    exact ⟨rfl, isErrorStr_errorPlus _⟩
  · intro hc hln
    have hcb : (content == "") = false := by simpa using hc
    have hv : insert_manifest_lines content ln text
        = { message := mkLineNumErr ln, content := content } := by
      unfold insert_manifest_lines
      rw [hcb, if_neg (by simp)]
      dsimp only
      rw [if_pos hln]
    rw [hv]
    exact ⟨rfl, isErrorStr_errorPlus _⟩
  · intro hc hln
    have hcb : (content == "") = false := by simpa using hc
    have hv : insert_manifest_lines content ln text
        = { message := mkInsertOk (pySplitlines text).length ln,
            content := joinNL ((pySplitlines content).take
                (min (ln - 1) ((pySplitlines content).length : Int)).toNat
              ++ pySplitlines text
              ++ (pySplitlines content).drop
                (min (ln - 1) ((pySplitlines content).length : Int)).toNat) } := by
      unfold insert_manifest_lines
      rw [hcb, if_neg (by simp)]
      dsimp only
      rw [if_neg (by omega)]
    refine ⟨by rw [hv], by omega, fun h => by omega, fun h => by omega⟩

/-- **C6, witness** (spec scenario 2). On manifest `"a\nb\nc"`,
`insert_manifest_lines(2, "X")` yields `"a\nX\nb\nc"`. -/
theorem claim_C6_witness :
    (insert_manifest_lines "a\nb\nc" 2 "X").content = "a\nX\nb\nc" := by
  have h := ((claim_C6 "a\nb\nc" "X" 2).2.2 (by decide) (by decide)).1
  rw [h]
  decide

/-- **C3, counterexample.** On the two-line manifest `"a\nb"`,
`replace_manifest_lines(1, 1, "")` yields `"b"` (the replacement text is split
with Python `splitlines()`, so the empty text contributes zero lines and the
range is deleted), while the claim's formula
`lines[0:0] + "".split("\n") + lines[1:]` yields `["", "b"]`, i.e. `"\nb"`
with two lines; the claimed line-count delta `len("".split("\n")) - 1 = 0`
also fails (the count drops from 2 to 1). -/
theorem claim_C3_counterexample :
    (replace_manifest_lines "a\nb" 1 1 "").content = "b"
    ∧ joinNL ((pySplitlines "a\nb").take 0 ++ pySplitNewline ""
        ++ (pySplitlines "a\nb").drop 1) = "\nb"
    ∧ ("b" : String) ≠ "\nb"
    ∧ (pySplitlines (replace_manifest_lines "a\nb" 1 1 "").content).length = 1
    ∧ (pySplitlines "a\nb").length = 2 ∧ (pySplitNewline "").length = 1 := by
  decide

/-- **C3, amended.** For `1 ≤ s ≤ e ≤ N` (`N` the `splitlines` count of the
manifest), `replace_manifest_lines(s, e, text)` stores the newline-join of the
spliced line list `lines[0:s-1] + text.splitlines() + lines[e:]` (so an empty
`text` deletes the range outright and a trailing newline in `text` adds no
empty line), whose length is `N + len(text.splitlines()) - (e - s + 1)`;
whenever the spliced list does not end in an empty line, re-splitting the
stored content recovers it exactly, so the line count changes by
`len(text.splitlines()) - (e - s + 1)`. When `s` is outside `[1, N]`, or
`e < s`, or `e > N`, or the manifest is empty, the call returns an
`Error:`-prefixed string and the manifest is unchanged. -/
theorem claim_C3 (content text : String) (s e : Int) :
    (1 ≤ s → s ≤ e → e ≤ ((pySplitlines content).length : Int) →
      (replace_manifest_lines content s e text).content
          = joinNL ((pySplitlines content).take (s - 1).toNat
              ++ pySplitlines text ++ (pySplitlines content).drop e.toNat)
        ∧ ((((pySplitlines content).take (s - 1).toNat ++ pySplitlines text
              ++ (pySplitlines content).drop e.toNat).length : Int)
            = ((pySplitlines content).length : Int)
              + ((pySplitlines text).length : Int) - (e - s + 1))
        ∧ (((pySplitlines content).take (s - 1).toNat ++ pySplitlines text
              ++ (pySplitlines content).drop e.toNat).getLast? ≠ some "" →
            pySplitlines ((replace_manifest_lines content s e text).content)
              = (pySplitlines content).take (s - 1).toNat
                ++ pySplitlines text ++ (pySplitlines content).drop e.toNat))
    ∧ (content ≠ "" → (s < 1 ∨ ((pySplitlines content).length : Int) < s) →
        (replace_manifest_lines content s e text).content = content
        ∧ isErrorStr (replace_manifest_lines content s e text).message = true)
    ∧ (content ≠ "" → 1 ≤ s → s ≤ ((pySplitlines content).length : Int) →
        e < s →
        (replace_manifest_lines content s e text).content = content
        ∧ isErrorStr (replace_manifest_lines content s e text).message = true)
    ∧ (content ≠ "" → 1 ≤ s → s ≤ ((pySplitlines content).length : Int) →
        s ≤ e → ((pySplitlines content).length : Int) < e →
        (replace_manifest_lines content s e text).content = content
        ∧ isErrorStr (replace_manifest_lines content s e text).message = true)
    ∧ (content = "" →
        (replace_manifest_lines content s e text).content = content
        ∧ isErrorStr (replace_manifest_lines content s e text).message
            = true) := by
  refine ⟨?_, ?_, ?_, ?_, ?_⟩
  · intro h1 h2 h3
    by_cases hc : content = ""
    · rw [show pySplitlines content = [] by rw [hc]; rfl] at h3
      simp at h3
      omega
    · have hcb : (content == "") = false := by simpa using hc
      have hv : replace_manifest_lines content s e text
          = { message := mkReplaceOk (e - s + 1) s e (pySplitlines text).length,
              content := joinNL ((pySplitlines content).take (s - 1).toNat
                ++ pySplitlines text
                ++ (pySplitlines content).drop e.toNat) } := by
        unfold replace_manifest_lines
        rw [hcb, if_neg (by simp)]
        dsimp only
        rw [if_neg (by simp; omega), if_neg (by omega), if_neg (by omega)]
      refine ⟨by rw [hv], ?_, ?_⟩
      · rw [List.length_append, List.length_append, List.length_take,
          List.length_drop]
        omega
      · intro hlast
        rw [show (replace_manifest_lines content s e text).content
          = joinNL ((pySplitlines content).take (s - 1).toNat
              ++ pySplitlines text
              ++ (pySplitlines content).drop e.toNat) by rw [hv]]
        apply pySplitlines_joinNL
        · intro x hx
          rcases List.mem_append.mp hx with hx | hx3
          · rcases List.mem_append.mp hx with hx1 | hx2
            · exact pySplitlines_not_mem_nl content x
                (List.take_subset _ _ hx1)
            · exact pySplitlines_not_mem_nl text x hx2
          · exact pySplitlines_not_mem_nl content x
              (List.drop_subset _ _ hx3)
        · exact hlast
  · intro hc hbad
    have hcb : (content == "") = false := by simpa using hc
    have hv : replace_manifest_lines content s e text
        = { message := mkStartErr s (pySplitlines content).length,
            content := content } := by
      unfold replace_manifest_lines
      rw [hcb, if_neg (by simp)]
      dsimp only
      rw [if_pos (by simp; omega)]
    rw [hv]
    exact ⟨rfl, isErrorStr_errorPlus _⟩
  · intro hc hs1 hs2 he
    have hcb : (content == "") = false := by simpa using hc
    have hv : replace_manifest_lines content s e text
        = { message := mkEndBeforeErr e s, content := content } := by
      unfold replace_manifest_lines
      rw [hcb, if_neg (by simp)]
      dsimp only
      rw [if_neg (by simp; omega), if_pos he]
    rw [hv]
    exact ⟨rfl, isErrorStr_errorPlus _⟩
  · intro hc hs1 hs2 he1 he2
    have hcb : (content == "") = false := by simpa using hc
    have hv : replace_manifest_lines content s e text
        = { message := mkEndRangeErr e (pySplitlines content).length,
            content := content } := by
      unfold replace_manifest_lines
      rw [hcb, if_neg (by simp)]
      dsimp only
      rw [if_neg (by simp; omega), if_neg (by omega), if_pos (by omega)]
    rw [hv]
    exact ⟨rfl, isErrorStr_errorPlus _⟩
  · intro hc
    subst hc
    exact ⟨rfl, isErrorStr_errorPlus _⟩

/-- **C3, witness.** Replacing lines `[2, 3]` of a five-line manifest with the
two lines `"r1\nr2"` yields the expected spliced content with an unchanged
line count. -/
theorem claim_C3_witness :
    (replace_manifest_lines "l1\nl2\nl3\nl4\nl5" 2 3 "r1\nr2").content
      = "l1\nr1\nr2\nl4\nl5"
    ∧ pySplitlines
        ((replace_manifest_lines "l1\nl2\nl3\nl4\nl5" 2 3 "r1\nr2").content)
      = ["l1", "r1", "r2", "l4", "l5"] := by
  have h := (claim_C3 "l1\nl2\nl3\nl4\nl5" "r1\nr2" 2 3).1
    (by decide) (by decide) (by decide)
  constructor
  · rw [h.1]
    decide
  · rw [h.2.2 (by decide)]
    decide

/-- The stream task of spec scenario 4
(`add_task(category=stream, id="s1", name="Read users stream",
stream_name="users")`). -/
def c7s1 : Task :=
  { task_type := TaskTypeEnum.stream, id := "s1",
    task_name := "Read users stream", stream_name := some "users" }

/-- The task list of spec scenario 4 after adding `c7s1`. -/
def c7TL : TaskList := { stream_tasks := [c7s1] }

/-- Python `TaskStatus(status)` of `task_list.py`: the four member values
parse; any other string raises `ValueError` (caught by the tool, which then
returns its invalid-status error). -/
def parseTaskStatus : String → Option TaskStatusEnum
  | "not_started" => some TaskStatusEnum.not_started
  | "in_progress" => some TaskStatusEnum.in_progress
  | "completed" => some TaskStatusEnum.completed
  | "blocked" => some TaskStatusEnum.blocked
  | _ => none

/-- Python truthiness of the optional `task_status_detail` string argument:
truthy exactly when present and nonempty. -/
def pyTruthyStr : Option String → Bool
  | none => false
  | some s => !(s == "")

/-- `f"Error: Invalid status \x27{status}\x27. Must be one of: ..."`. -/
def mkInvalidStatusErr (status : String) : String :=
  "Error: " ++ ("Invalid status \x27" ++ status
    ++ "\x27. Must be one of: not_started, in_progress, completed, blocked")

/-- `f"Error: Task with ID \x27{task_id}\x27 not found in task list."`. -/
def mkTaskNotFoundErr (task_id : String) : String :=
  "Error: " ++ ("Task with ID \x27" ++ task_id ++ "\x27 not found in task list.")

/-- The success message of the `update_task_status` agent tool. -/
def mkUpdateOkMsg (task_id status : String) (d : Option String) : String :=
  "Successfully updated task \x27" ++ task_id ++ "\x27 status to \x27" ++ status
    ++ "\x27"
    ++ (if pyTruthyStr d then " with detail: " ++ d.getD "" else "") ++ "."

/-- The `update_task_status` agent tool of `chat_agent.py` (lines 842-897),
modelled on the flat task list already parsed from `task_list_json` (the JSON
(de)serialisation and the empty-`task_list_json` guard are outside this
model). It parses the status string, looks the task up (`None` → error
string), sets the task's `status`, and — unlike the models implementation —
assigns `task_status_detail` only when the given detail is truthy, otherwise
leaving the stored detail untouched. -/
def update_task_status_tool (tl : Flat.TaskList) (task_id status : String)
    (task_status_detail : Option String) : Flat.TaskList × String :=
  match parseTaskStatus status with
  | none => (tl, mkInvalidStatusErr status)
  | some st =>
      match tl.get_task_by_id task_id with
      | none => (tl, mkTaskNotFoundErr task_id)
      | some _ =>
          ({ tl with tasks := updFirst (fun t => t.id == task_id)
                         (fun t => { t with
                           status := st,
                           task_status_detail := if pyTruthyStr task_status_detail
                             then task_status_detail else t.task_status_detail })
                         tl.tasks },
           mkUpdateOkMsg task_id status task_status_detail)

/-- A stream task that already carries a status detail. -/
def c7prev : Task :=
  { task_type := TaskTypeEnum.stream, id := "s1",
    task_name := "Read users stream", stream_name := some "users",
    status := TaskStatusEnum.in_progress, status_detail := some "halfway" }

/-- A task list whose single task already carries a status detail. -/
def c7prevTL : TaskList := { stream_tasks := [c7prev] }

/-- A flat-list task that already carries a status detail. -/
def fPrev : Flat.Task :=
  { task_type := TaskTypeEnum.stream, id := "f1", task_name := "t",
    stream_name := some "u", status := TaskStatusEnum.in_progress,
    task_status_detail := some "keep me" }

/-- A flat task list whose single task already carries a status detail. -/
def fPrevTL : Flat.TaskList := { name := "n", description := "d", tasks := [fPrev] }

/-- **C7, counterexample.** A detail-omitted call is not frame-preserving in
the models implementation: `update_task_status("s1", completed)` on a task
whose `status_detail` is `some "halfway"` returns `True` but **clears** the
stored detail (`models/task_list.py:153` assigns
`task.status_detail = status_detail` unconditionally), changing a field other
than `status` although no detail was given. -/
theorem claim_C7_counterexample :
    c7prevTL.update_task_status "s1" TaskStatusEnum.completed none
      = Except.ok ({ stream_tasks := [{ c7prev with
                       status := TaskStatusEnum.completed,
                       status_detail := none }] }, true)
    ∧ c7prev.status_detail = some "halfway"
    ∧ ({ c7prev with
          status := TaskStatusEnum.completed,
          status_detail := none }).status_detail ≠ c7prev.status_detail := by
  decide

/-- **C7, amended.** `update_task_status(id, status, detail?)` fails with the
not-found `ValueError` when no task bears the id; otherwise it returns `True`
after setting the first matching task's `status` and assigning
`status_detail` **unconditionally** — to the given detail when one is given,
and to `None` when omitted, clearing any previously stored detail — while the
task's remaining fields and every other task are unchanged. The
`update_task_status` agent tool of `chat_agent.py` diverges on the omitted
case: it returns its not-found error string leaving the list unchanged when
the id is absent, and on success overwrites `task_status_detail` only when
the given detail is truthy, otherwise preserving the stored detail. Scenario
4 (detail given) holds in both. -/
theorem claim_C7 (tl : TaskList) (ftl : Flat.TaskList) (tid : String)
    (st : TaskStatusEnum) (d : Option String) (statusStr : String) :
    ((∀ u ∈ tl.tasks, u.id ≠ tid) →
      tl.update_task_status tid st d = Except.error (notFoundMsg tid))
    ∧ (∀ pre t post, tl.tasks = pre ++ t :: post → (∀ u ∈ pre, u.id ≠ tid) →
        t.id = tid →
        ∃ tl2, tl.update_task_status tid st d = Except.ok (tl2, true)
          ∧ tl2.tasks
              = pre ++ { t with status := st, status_detail := d } :: post)
    ∧ (parseTaskStatus statusStr = some st → (∀ u ∈ ftl.tasks, u.id ≠ tid) →
        update_task_status_tool ftl tid statusStr d
          = (ftl, mkTaskNotFoundErr tid))
    ∧ (parseTaskStatus statusStr = some st →
        ∀ pre t post, ftl.tasks = pre ++ t :: post →
          (∀ u ∈ pre, u.id ≠ tid) → t.id = tid →
          (update_task_status_tool ftl tid statusStr d).1.tasks
            = pre ++ { t with
                status := st,
                task_status_detail := if pyTruthyStr d then d
                  else t.task_status_detail } :: post) := by
  refine ⟨?_, ?_, ?_, ?_⟩
  · intro habs
    have hf : tl.tasks.find? (fun t => t.id == tid) = none :=
      List.find?_eq_none.mpr fun u hu => by simpa using habs u hu
    unfold TaskList.update_task_status TaskList.get_task_by_id
    rw [hf]
  · intro pre t post hsplit hpre ht
    have hf : tl.tasks.find? (fun u => u.id == tid) = some t := by
      rw [hsplit]
      exact find?_split _ pre post t (fun u hu => by simpa using hpre u hu)
        (by simpa using ht)
    refine ⟨tl.updateFirstMatching tid
      (fun u => { u with status := st, status_detail := d }), ?_, ?_⟩
    · unfold TaskList.update_task_status TaskList.get_task_by_id
      rw [hf]
    · rw [updateFirstMatching_tasks, hsplit]
      exact updFirst_split _ _ pre post t
        (fun u hu => by simpa using hpre u hu) (by simpa using ht)
  · intro hparse habs
    have hf : ftl.tasks.find? (fun t => t.id == tid) = none :=
      List.find?_eq_none.mpr fun u hu => by simpa using habs u hu
    unfold update_task_status_tool Flat.TaskList.get_task_by_id
    rw [hparse, hf]
  · intro hparse pre t post hsplit hpre ht
    have hf : ftl.tasks.find? (fun u => u.id == tid) = some t := by
      rw [hsplit]
      exact find?_split _ pre post t (fun u hu => by simpa using hpre u hu)
        (by simpa using ht)
    unfold update_task_status_tool Flat.TaskList.get_task_by_id
    rw [hparse, hf]
    dsimp only
    rw [hsplit]
    exact updFirst_split _ _ pre post t
      (fun u hu => by simpa using hpre u hu) (by simpa using ht)

/-- **C7, witness** (spec scenario 4, plus the two optional-detail regimes).
With the detail given, `update_task_status("s1", completed,
"200 records read")` on the models list succeeds with status `completed` and
the new detail; with the detail omitted, the agent tool preserves the flat
task's stored detail `"keep me"` while the models implementation (see the
counterexample) clears it. -/
theorem claim_C7_witness :
    (∃ tl2, c7TL.update_task_status "s1" TaskStatusEnum.completed
        (some "200 records read") = Except.ok (tl2, true)
      ∧ tl2.tasks
          = [{ c7s1 with
                status := TaskStatusEnum.completed,
                status_detail := some "200 records read" }])
    ∧ (update_task_status_tool fPrevTL "f1" "completed" none).1.tasks
        = [{ fPrev with status := TaskStatusEnum.completed }] := by
  constructor
  · obtain ⟨tl2, h1, h2⟩ :=
      (claim_C7 c7TL fPrevTL "s1" TaskStatusEnum.completed
        (some "200 records read") "completed").2.1
        [] c7s1 [] rfl (by simp) rfl
    exact ⟨tl2, h1, by simpa using h2⟩
  · have h :=
      (claim_C7 c7TL fPrevTL "f1" TaskStatusEnum.completed none
        "completed").2.2.2 rfl [] fPrev [] rfl (by simp) rfl
    rw [h]
    decide

/-- Every task is stored in the category sequence matching its type — true of
every `TaskList` built through the class operations, but not forced by the
(pydantic) field types, which admit any `Task` in any sequence. -/
def wellFiled (tl : TaskList) : Prop :=
  (∀ t ∈ tl.basic_connector_tasks, t.task_type = TaskTypeEnum.connector)
  ∧ (∀ t ∈ tl.stream_tasks, t.task_type = TaskTypeEnum.stream)
  ∧ (∀ t ∈ tl.finalization_tasks, t.task_type = TaskTypeEnum.finalization)

/-- A task list with a stream-typed task stored in the connector sequence —
in Python, `TaskList(basic_connector_tasks=[StreamTask(id="x", ...)])`, which
pydantic accepts (a `StreamTask` is a `Task` and instances are not
revalidated). -/
def misfiledTL : TaskList :=
  { basic_connector_tasks :=
      [{ task_type := TaskTypeEnum.stream, id := "x", task_name := "m",
         stream_name := some "s" }] }

/-- **C10, counterexample.** On `misfiledTL` the lookup of `"x"` succeeds,
yet `remove_task "x"` raises the `ValueError` of `list.remove` (the
`isinstance` dispatch removes from `stream_tasks`, where the task is absent):
the operation neither returns `True` nor propagates a lookup error, refuting
the claim's final clause for this input. -/
theorem claim_C10_counterexample :
    misfiledTL.remove_task "x" = Except.error "list.remove(x): x not in list"
    ∧ misfiledTL.get_task_by_id "x" ≠ Except.error (notFoundMsg "x")
    ∧ misfiledTL.get_task_by_id "x" ≠ Except.ok none := by decide

/-- **C10, amended.** `get_task_by_id` never returns `None` despite its
declared type: it yields the first task bearing the id or raises `ValueError`.
Consequently the trailing `raise ValueError` fallthroughs of
`update_task_status` and `remove_task` are unreachable: `update_task_status`
always either returns `True` or propagates the lookup's `ValueError`, and so
does `remove_task` on every task list whose tasks are stored in the category
sequence matching their type (every list built via the class API); on a
misfiled list `remove_task` instead raises the distinct `ValueError` of
`list.remove`. -/
theorem claim_C10 (tl : TaskList) (tid : String) (st : TaskStatusEnum)
    (d : Option String) :
    tl.get_task_by_id tid ≠ Except.ok none
    ∧ ((∃ pre t post, tl.tasks = pre ++ t :: post ∧ t.id = tid
          ∧ (∀ u ∈ pre, u.id ≠ tid)
          ∧ tl.get_task_by_id tid = Except.ok (some t))
       ∨ ((∀ u ∈ tl.tasks, u.id ≠ tid)
          ∧ tl.get_task_by_id tid = Except.error (notFoundMsg tid)))
    ∧ (tl.get_task_by_id tid = Except.error (notFoundMsg tid) →
        tl.update_task_status tid st d = Except.error (notFoundMsg tid)
        ∧ tl.remove_task tid = Except.error (notFoundMsg tid))
    ∧ (∀ t, tl.get_task_by_id tid = Except.ok (some t) →
        ∃ tl2, tl.update_task_status tid st d = Except.ok (tl2, true))
    ∧ (wellFiled tl → ∀ t, tl.get_task_by_id tid = Except.ok (some t) →
        ∃ tl3, tl.remove_task tid = Except.ok (tl3, true)) := by
  have hget : ∀ t, tl.get_task_by_id tid = Except.ok (some t) →
      tl.tasks.find? (fun u => u.id == tid) = some t := by
    intro t h
    unfold TaskList.get_task_by_id at h
    cases hf : tl.tasks.find? (fun u => u.id == tid) with
    | none => rw [hf] at h; cases h
    | some t' => rw [hf] at h; cases h; rfl
  have hgete : tl.get_task_by_id tid = Except.error (notFoundMsg tid) →
      tl.tasks.find? (fun u => u.id == tid) = none := by
    intro h
    cases hf : tl.tasks.find? (fun u => u.id == tid) with
    | none => rfl
    | some t' =>
        unfold TaskList.get_task_by_id at h
        rw [hf] at h; cases h
  refine ⟨?_, ?_, ?_, ?_, ?_⟩
  · unfold TaskList.get_task_by_id
    cases tl.tasks.find? (fun u => u.id == tid) <;> simp
  · cases hf : tl.tasks.find? (fun u => u.id == tid) with
    | none =>
        right
        refine ⟨fun u hu => by simpa using List.find?_eq_none.mp hf u hu, ?_⟩
        unfold TaskList.get_task_by_id
        rw [hf]
    | some t =>
        left
        obtain ⟨pre, post, hsplit, hpre⟩ := find?_eq_some_split hf
        have hid : t.id = tid := by
          have := List.find?_some hf
          simpa using this
        refine ⟨pre, t, post, hsplit, hid,
          fun u hu => by simpa using hpre u hu, ?_⟩
        unfold TaskList.get_task_by_id
        rw [hf]
  · intro h
    have hf := hgete h
    constructor
    · unfold TaskList.update_task_status TaskList.get_task_by_id
      rw [hf]
    · unfold TaskList.remove_task TaskList.get_task_by_id
      rw [hf]
  · intro t h
    have hf := hget t h
    refine ⟨tl.updateFirstMatching tid
      (fun u => { u with status := st, status_detail := d }), ?_⟩
    unfold TaskList.update_task_status TaskList.get_task_by_id
    rw [hf]
  · intro hw t h
    have hf := hget t h
    have hmem : t ∈ tl.tasks := List.mem_of_find?_eq_some hf
    unfold TaskList.tasks at hmem
    rcases List.mem_append.mp hmem with hm | hmc
    · rcases List.mem_append.mp hm with hma | hmb
      · have hty := hw.1 t hma
        obtain ⟨l2, hl2⟩ := pyListRemove_ok_of_mem hma
        refine ⟨{ tl with basic_connector_tasks := l2 }, ?_⟩
        unfold TaskList.remove_task TaskList.get_task_by_id
        rw [hf]
        dsimp only
        rw [hty]
        dsimp only
        rw [hl2]
        rfl
      · have hty := hw.2.1 t hmb
        obtain ⟨l2, hl2⟩ := pyListRemove_ok_of_mem hmb
        refine ⟨{ tl with stream_tasks := l2 }, ?_⟩
        unfold TaskList.remove_task TaskList.get_task_by_id
        rw [hf]
        dsimp only
        rw [hty]
        dsimp only
        rw [hl2]
        rfl
    · have hty := hw.2.2 t hmc
      obtain ⟨l2, hl2⟩ := pyListRemove_ok_of_mem hmc
      refine ⟨{ tl with finalization_tasks := l2 }, ?_⟩
      unfold TaskList.remove_task TaskList.get_task_by_id
      rw [hf]
      dsimp only
      rw [hty]
      dsimp only
      rw [hl2]
      rfl

/-- **C10, witness.** On the well-filed `dupTL`, updating and removing the
present id `"a"` return `True`, while for the absent id `"z"` both operations
propagate the lookup's `ValueError`. -/
theorem claim_C10_witness :
    (∃ tl2, dupTL.update_task_status "a" TaskStatusEnum.in_progress none
      = Except.ok (tl2, true))
    ∧ (∃ tl3, dupTL.remove_task "a" = Except.ok (tl3, true))
    ∧ dupTL.update_task_status "z" TaskStatusEnum.in_progress none
        = Except.error (notFoundMsg "z")
    ∧ dupTL.remove_task "z" = Except.error (notFoundMsg "z") := by
  have ha := claim_C10 dupTL "a" TaskStatusEnum.in_progress none
  have hz := claim_C10 dupTL "z" TaskStatusEnum.in_progress none
  refine ⟨ha.2.2.2.1 dupBase (by decide),
    ha.2.2.2.2 (by refine ⟨?_, ?_, ?_⟩ <;> decide) dupBase (by decide),
    (hz.2.2.1 (by decide)).1, (hz.2.2.1 (by decide)).2⟩

/-- **C9.** For every `TaskList` (in particular every reachable one), the four
per-status counts of `get_summary` sum to `total`, `total` is the number of
tasks in the combined `tasks` concatenation, and the summary is a pure
function of the list (it is modelled as, and the source is, read-only). -/
theorem claim_C9 (tl : TaskList) :
    (tl.get_summary.not_started + tl.get_summary.in_progress
      + tl.get_summary.completed + tl.get_summary.blocked
      = tl.get_summary.total)
    ∧ tl.get_summary.total = tl.tasks.length := by
  constructor
  · simpa [TaskList.get_summary] using countP_status_partition tl.tasks
  · rfl

end ACB
